import Mathlib

/-!
Verification of the RingLight monitor daemon (src/src/monitor.c and
src/src/ringlight-monitor.c) against its natural-language specification.

The C sources are shallowly embedded: strings are `List Char`, a config
file is a `List (List Char)` of raw lines (an unreadable or missing file
is `none`), process tables and child-pid arrays are lists, and the
side-effecting probes (open/ioctl, fork, kill, waitpid) are driven by
explicit environment records recording what the kernel would answer.
-/

namespace RingLight

/-- Characters that `atoi` skips as leading whitespace (C `isspace`). -/
def isSpaceChar (c : Char) : Bool :=
  c = ' ' || c = '\t' || c = '\n' || c = '\r' || c = '\x0b' || c = '\x0c'

/-- Accumulate decimal digits, stopping at the first non-digit (the digit
loop of C `atoi`). -/
def digitsAcc : List Char → Int → Int
  | c :: cs, acc =>
    if '0' ≤ c && c ≤ '9' then digitsAcc cs (acc * 10 + (c.toNat - '0'.toNat : Nat))
    else acc
  | [], acc => acc

/-- C `atoi`: skip leading whitespace, optional sign, then digits; no
digits yields 0.  (Overflow is undefined behaviour in C; the daemon only
feeds it small config values, so we model the mathematical integer.) -/
def atoi (l : List Char) : Int :=
  match l.dropWhile isSpaceChar with
  | '-' :: rest => - digitsAcc rest 0
  | '+' :: rest => digitsAcc rest 0
  | rest => digitsAcc rest 0

/-- Split a line at its first '=' (C `strchr(line, '=')`): text before
and text after, or `none` when the line has no '='. -/
def splitAtEq : List Char → Option (List Char × List Char)
  | [] => none
  | c :: cs =>
    if c = '=' then some ([], cs)
    else match splitAtEq cs with
      | some (pre, post) => some (c :: pre, post)
      | none => none

/-- Leading-whitespace skip applied to a value (`while (*v==' '||*v=='\t') v++`). -/
def dropLeadingWs : List Char → List Char
  | c :: cs => if c = ' ' || c = '\t' then dropLeadingWs cs else c :: cs
  | [] => []

/-- Trailing trim of `get_config_value`: the C loop
`while (end > value && (*end=='\n'||*end=='\r'||*end==' ')) *end-- = 0;`
removes trailing newline / CR / space but never the first character. -/
def trimTrailing (l : List Char) : List Char :=
  match l with
  | [] => []
  | c :: cs => c :: (cs.reverse.dropWhile (fun x => x = '\n' || x = '\r' || x = ' ')).reverse

/-- Value extraction of `get_config_value` once the key matched. -/
def extractValue (post : List Char) : List Char :=
  trimTrailing (dropLeadingWs post)

/-- A line the parser skips outright: comment (`#`, `;`) or section header (`[`). -/
def lineSkipped (l : List Char) : Bool :=
  match l with
  | [] => false
  | c :: _ => c = '#' || c = ';' || c = '['

/-- `get_config_value` of monitor.c: scan the lines in order; skip
comments/sections and lines without '='; on the first line whose text
before the first '=' equals the key byte-for-byte, return the trimmed
value; otherwise `none`. -/
def get_config_value : List (List Char) → List Char → Option (List Char)
  | [], _ => none
  | l :: ls, key =>
    if lineSkipped l then get_config_value ls key
    else match splitAtEq l with
      | none => get_config_value ls key
      | some (pre, post) =>
        if pre = key then some (extractValue post)
        else get_config_value ls key

/-- Read one key of a config file; an unreadable or missing file (`none`,
C `fopen` failing) yields no value for every key. -/
def getVal (file : Option (List (List Char))) (key : List Char) : Option (List Char) :=
  match file with
  | none => none
  | some ls => get_config_value ls key

/-- Trim of one comma-separated token in `load_config` (spaces only). -/
def trimSpaces (l : List Char) : List Char :=
  ((l.dropWhile (fun c => c = ' ')).reverse.dropWhile (fun c => c = ' ')).reverse

/-- C `strtok(copy, ",")` loop of `load_config`: tokens between commas
(empty pieces are skipped by strtok), each trimmed of spaces, tokens that
trim to nothing dropped, and at most `cap` tokens kept. -/
def parseCommaList (cap : Nat) (l : List Char) : List (List Char) :=
  (((l.splitOn ',').filter (fun t => t ≠ [])).map trimSpaces).filter (fun t => t ≠ []) |>.take cap

/-- Sequential clamp of `brightness` in monitor.c (`<1 → 1`, `>100 → 100`). -/
def clampBrightness (b : Int) : Int := if b < 1 then 1 else if b > 100 then 100 else b

/-- Sequential clamp of `width` in monitor.c (`<10 → 10`, `>500 → 500`). -/
def clampWidth (w : Int) : Int := if w < 10 then 10 else if w > 500 then 500 else w

/-- Leading `#` removal when loading `color`. -/
def stripHash : List Char → List Char
  | '#' :: rest => rest
  | l => l

/-- The mutable settings of monitor.c that `load_config` and the CLI
override phase write (poll interval is CLI-only in this source and kept
separate). -/
structure Config where
  color : List Char
  brightness : Int
  width : Int
  video_dev : List Char
  procs : List (List Char)
  screens : List (List Char)
deriving DecidableEq, Repr

/-- The file-scope initial values of monitor.c's settings. -/
def defaultConfig : Config where
  color := "FFFFFF".toList
  brightness := 100
  width := 80
  video_dev := "/dev/video0".toList
  procs := []
  screens := []

/-- The `processes` block of `load_config` followed by the trailing
`howdy` default (these are the only two writes of `proc_count`/`procs`
in the C function, so they compose into one field). -/
def loadProcs (file : Option (List (List Char))) : List (List Char) :=
  let ps : List (List Char) :=
    match getVal file "processes".toList with
    | some v => if v ≠ [] then parseCommaList 15 v else []
    | none => []
  if ps = [] then ["howdy".toList] else ps

/-- The screens block of `load_config`: `enabledScreenIndices` is
consulted first; only when it is absent or empty is `enabledScreens`
read. -/
def loadScreens (file : Option (List (List Char))) : List (List Char) :=
  match getVal file "enabledScreenIndices".toList with
  | some v =>
    if v ≠ [] then parseCommaList 8 v
    else
      match getVal file "enabledScreens".toList with
      | some w => if w ≠ [] then parseCommaList 8 w else []
      | none => []
  | none =>
    match getVal file "enabledScreens".toList with
    | some w => if w ≠ [] then parseCommaList 8 w else []
    | none => []

/-- `load_config` of monitor.c: read each recognized key from the file
(missing file: every read yields `none` and all defaults stand), clamp
brightness/width, parse the comma lists with their caps (15 processes,
8 screens), and default the watch list to `howdy` when no process was
configured.  The C function writes one global per key block, each block
touching only its own variable, so the embedding is per field; the
function has no failure path. -/
def load_config (file : Option (List (List Char))) : Config where
  color :=
    match getVal file "color".toList with
    | some v => stripHash v
    | none => defaultConfig.color
  brightness :=
    match getVal file "brightness".toList with
    | some v => clampBrightness (atoi v)
    | none => defaultConfig.brightness
  width :=
    match getVal file "width".toList with
    | some v => clampWidth (atoi v)
    | none => defaultConfig.width
  video_dev :=
    match getVal file "videoDevice".toList with
    | some v => if v ≠ [] then v else defaultConfig.video_dev
    | none => defaultConfig.video_dev
  procs := loadProcs file
  screens := loadScreens file

/-- The command-line values main() records during `getopt_long`; a field
is `none` when its flag was absent. `brightness`/`width` hold the raw
`atoi` result (clamped later, at override time); `screens` holds the
`-s` tokens (strtok on ',', untrimmed, at most 8). -/
structure CliOpts where
  device : Option (List Char)
  color : Option (List Char)
  brightness : Option Int
  width : Option Int
  procs : Option (List (List Char))
  screens : Option (List (List Char))
deriving DecidableEq, Repr

/-- A command line with no flags. -/
def noOpts : CliOpts where
  device := none
  color := none
  brightness := none
  width := none
  procs := none
  screens := none

/-- The "apply command line overrides" block of main(): each present flag
replaces the loaded value, with brightness and width clamped again.  Each
`if (custom_X)` block of the C writes only the global it overrides, so
the embedding is per field. -/
def apply_overrides (cfg : Config) (cli : CliOpts) : Config where
  color := match cli.color with | some col => col | none => cfg.color
  brightness := match cli.brightness with | some b => clampBrightness b | none => cfg.brightness
  width := match cli.width with | some w => clampWidth w | none => cfg.width
  video_dev := match cli.device with | some d => d | none => cfg.video_dev
  procs := match cli.procs with | some ps => ps | none => cfg.procs
  screens := match cli.screens with | some ss => ss | none => cfg.screens

/-- Full startup configuration: config file first, then CLI overrides
(the order main() uses). -/
def startupConfig (file : Option (List (List Char))) (cli : CliOpts) : Config :=
  apply_overrides (load_config file) cli

/-- The `-i` handler of main() in monitor.c (identical in
ringlight-monitor.c): `poll_ms = atoi(optarg); if (poll_ms < 10) poll_ms = 10;`. -/
def apply_interval_opt (optarg : List Char) : Int :=
  let p := atoi optarg
  if p < 10 then 10 else p

/-- The poll interval after startup: the default 150 ms, or the clamped
`-i` value; no config-file key feeds it in this source. -/
def final_poll_ms (intervalArg : Option (List Char)) : Int :=
  match intervalArg with
  | none => 150
  | some a => apply_interval_opt a

/-! ## Camera probe (v4l2_busy / v4l2_streaming) -/

/-- Outcome of `open(dev, O_RDONLY|O_NONBLOCK)`: failure with an errno, or
an open file descriptor. -/
inductive OpenOutcome
  | failure (err : Int)
  | opened
deriving DecidableEq, Repr

/-- Outcome of the `VIDIOC_REQBUFS` ioctl on the opened descriptor:
success (`ret = 0`), or failure with the errno it set. -/
inductive IoctlOutcome
  | success
  | failure (err : Int)
deriving DecidableEq, Repr

/-- What the kernel answers to this probe invocation. -/
structure ProbeEnv where
  openRes : OpenOutcome
  ioctlRes : IoctlOutcome
deriving DecidableEq, Repr

def EBUSY : Int := 16
def ENOENT : Int := 2
def ENODEV : Int := 19
def EACCES : Int := 13

/-- `v4l2_busy` of monitor.c (`v4l2_streaming` in ringlight-monitor.c is
identical): open read-only non-blocking; on open failure report false;
issue REQBUFS (type video-capture, memory mmap, count 0), close, and
report true exactly when the ioctl failed with errno EBUSY. -/
def v4l2_busy (env : ProbeEnv) : Bool :=
  match env.openRes with
  | .failure _ => false
  | .opened =>
    match env.ioctlRes with
    | .success => false
    | .failure err => err = EBUSY

/-! ## Process watcher (proc_running / watched_active) -/

/-- One row of the /proc scan as the daemon reads it: the PID and the
newline-stripped contents of its `comm` file (the kernel-reported short
name), plus the command line the kernel also exposes (monitor.c never
opens it, but the specification talks about it). -/
structure ProcEntry where
  pid : Int
  comm : List Char
  cmdline : List Char
deriving DecidableEq, Repr

/-- `proc_running` of monitor.c (`process_running` in ringlight-monitor.c
is identical): scan the process table and report whether some entry's
`comm` equals `name` byte-for-byte (`strcmp == 0`). -/
def proc_running (table : List ProcEntry) (name : List Char) : Bool :=
  table.any (fun p => p.comm = name)

/-- `watched_active` of monitor.c: some configured watch name has a
running process. -/
def watched_active (table : List ProcEntry) (procs : List (List Char)) : Bool :=
  procs.any (fun n => proc_running table n)

/-- ASCII lower-casing, for the specification's case-insensitive reading. -/
def lowerChar (c : Char) : Char :=
  if 'A' ≤ c && c ≤ 'Z' then Char.ofNat (c.toNat + 32) else c

/-- Case-insensitive equality of byte strings (specification side). -/
def eqCI (a b : List Char) : Bool :=
  a.map lowerChar = b.map lowerChar

/-- Case-insensitive prefix test (specification side). -/
def isPrefixCI : List Char → List Char → Bool
  | [], _ => true
  | _ :: _, [] => false
  | a :: as, b :: bs => lowerChar a = lowerChar b && isPrefixCI as bs

/-- Case-insensitive substring test: `needle` occurs somewhere inside
`hay` (specification side). -/
def containsCI (needle : List Char) : List Char → Bool
  | [] => isPrefixCI needle []
  | c :: rest => isPrefixCI needle (c :: rest) || containsCI needle rest

/-- Modelled from the spec: the watched-process match predicate the
specification describes — short name equal case-insensitively to some
watch name, or command line containing some watch name as a
case-insensitive substring.  To be compared against `proc_running`. -/
def specProcMatches (watch : List (List Char)) (p : ProcEntry) : Bool :=
  watch.any (fun n => eqCI p.comm n || containsCI n p.cmdline)

/-! ## Per-tick activity check (cam_active / webcam_active) -/

/-- What the three detectors would answer this tick.  `devInUse` stands
for `dev_in_use` (the /proc fd scan); `probe` is the environment the
V4L2 probe would see if it were invoked. -/
structure TickEnv where
  table : List ProcEntry
  devInUse : Bool
  probe : ProbeEnv
deriving DecidableEq, Repr

/-- `cam_active` of monitor.c with its C short-circuit `||` made
explicit: the first component is the boolean the loop sees, the second
records whether `v4l2_busy` was invoked this tick. -/
def cam_active_run (procs : List (List Char)) (e : TickEnv) : Bool × Bool :=
  if watched_active e.table procs then (true, false)
  else if e.devInUse then (true, false)
  else (v4l2_busy e.probe, true)

/-- The boolean `cam_active()` returns. -/
def cam_active (procs : List (List Char)) (e : TickEnv) : Bool :=
  (cam_active_run procs e).1

/-! ## Overlay supervisor (start_overlays / stop_overlays) -/

/-- Environment for one `start_overlays` call: `alive p` is
`kill(p, 0) == 0`, and `forkRes i` is what the `i`-th `fork` of this call
returns (`none` = failure, `some p` = child PID `p`). -/
structure SpawnEnv where
  alive : Int → Bool
  forkRes : Nat → Option Int

/-- The per-screen fork loop of `start_overlays`: one fork per selector
(`forkRes` consulted in order); a failed fork logs and continues; a
successful fork appends the child PID. -/
def spawnLoop (env : SpawnEnv) : List (List Char) → Nat → List Int
  | [], _ => []
  | _ :: rest, i =>
    match env.forkRes i with
    | none => spawnLoop env rest (i + 1)
    | some p => p :: spawnLoop env rest (i + 1)

/-- `start_overlays` of monitor.c acting on the `overlay_pids` list: if
some recorded PID is positive and alive, return unchanged (already
running); otherwise reset the list and fork one overlay per configured
screen (at most 8), or a single overlay when no screen is configured
(where a fork failure returns with the list emptied). -/
def start_overlays (env : SpawnEnv) (screens : List (List Char)) (pids : List Int) : List Int :=
  if pids.any (fun p => 0 < p && env.alive p) then pids
  else if screens = [] then
    match env.forkRes 0 with
    | none => []
    | some p => [p]
  else spawnLoop env (screens.take 8) 0

/-- Environment for one `stop_overlays` call: `exitsAtPoll p = some k`
means the `k`-th `waitpid(p, NULL, WNOHANG)` after SIGTERM (0-based)
returns nonzero — the child is gone by then; `none` means all ten polls
return 0 and the child survives until SIGKILL. -/
structure StopEnv where
  exitsAtPoll : Int → Option Nat

/-- Trace of one `stop_overlays` call: the PIDs signalled with SIGTERM,
those escalated to SIGKILL, the PIDs reaped by a `waitpid`, and how many
50 ms `usleep` slices were spent waiting. -/
structure StopTrace where
  sigtermed : List Int
  sigkilled : List Int
  reaped : List Int
  sleepSlices : Nat
deriving DecidableEq, Repr

/-- Handling of one recorded child in `stop_overlays`: entries `≤ 0` are
skipped; otherwise SIGTERM, up to ten WNOHANG polls with a 50 ms sleep
after each failed poll, then SIGKILL plus a blocking `waitpid` for a
child that never showed up. -/
def stopChild (env : StopEnv) (p : Int) : StopTrace :=
  if p ≤ 0 then ⟨[], [], [], 0⟩
  else
    match env.exitsAtPoll p with
    | some k =>
      if k < 10 then ⟨[p], [], [p], k⟩
      else ⟨[p], [p], [p], 10⟩
    | none => ⟨[p], [p], [p], 10⟩

/-- Concatenation of per-child traces, in order. -/
def appendTrace (a b : StopTrace) : StopTrace :=
  ⟨a.sigtermed ++ b.sigtermed, a.sigkilled ++ b.sigkilled,
   a.reaped ++ b.reaped, a.sleepSlices + b.sleepSlices⟩

/-- `stop_overlays` of monitor.c: process every recorded child in order,
then set `overlay_count = 0`; the result is the emptied PID list together
with the trace of signals, reaps and sleeps. -/
def stop_overlays (env : StopEnv) (pids : List Int) : List Int × StopTrace :=
  ([], (pids.map (stopChild env)).foldr appendTrace ⟨[], [], [], 0⟩)

/-! ## Event loop (main) -/

/-- One call the loop makes on a `target_lit` edge. -/
inductive LoopCall
  | spawn
  | terminate
deriving DecidableEq, Repr

/-- The body of one loop iteration, reduced to its edge decision:
`is && !was → spawn`, `!is && was → terminate`, otherwise nothing. -/
def tickCall (was is : Bool) : Option LoopCall :=
  if is && !was then some .spawn
  else if !is && was then some .terminate
  else none

/-- The loop of main() run over a finite sequence of `cam_active()`
results, starting from `was = false`: the list of (1-based tick index,
call) pairs it performs.  The same `was/is` loop appears verbatim in
ringlight-monitor.c's main(). -/
def loopCalls (probes : List Bool) : List (Nat × LoopCall) :=
  go probes false 1
where
  go : List Bool → Bool → Nat → List (Nat × LoopCall)
    | [], _, _ => []
    | is :: rest, was, n =>
      (match tickCall was is with
       | some c => [(n, c)]
       | none => []) ++ go rest is (n + 1)

/-- Rising (`false → true`) edges of a probe sequence, counted from the
specification's reading of "each not-in-use-to-in-use edge". -/
def risingEdges : Bool → List Bool → Nat
  | _, [] => 0
  | was, b :: rest => (if b && !was then 1 else 0) + risingEdges b rest

/-- Falling (`true → false`) edges of a probe sequence. -/
def fallingEdges : Bool → List Bool → Nat
  | _, [] => 0
  | was, b :: rest => (if !b && was then 1 else 0) + fallingEdges b rest

/-- Calls of one kind in a loop trace. -/
def countCalls (c : LoopCall) (l : List (Nat × LoopCall)) : Nat :=
  (l.filter (fun x => x.2 = c)).length

/-- Modelled from the claim's words: a line whose text before the first
'=' equals the key exactly (case-sensitive, no whitespace folded). -/
def keyLinePred (key : List Char) (l : List Char) : Bool :=
  match splitAtEq l with
  | some (pre, _) => pre = key
  | none => false

/-- Modelled from the claim's words: the first line of the file whose
text before the first '=' equals the key exactly. -/
def firstKeyLine (file : List (List Char)) (key : List Char) : Option (List Char) :=
  file.find? (keyLinePred key)

/-- Modelled from the claim's words: the value the loader should use —
the trimmed text after '=' on the first line matching the key. -/
def specConfigLookup (file : List (List Char)) (key : List Char) : Option (List Char) :=
  match firstKeyLine file key with
  | none => none
  | some l =>
    match splitAtEq l with
    | some (_, post) => some (extractValue post)
    | none => none

/-- The watch name `howdy` as the daemon stores it. -/
def howdyName : List Char := "howdy".toList

/-- A process whose kernel short name is upper-case `HOWDY`. -/
def upperHowdyEntry : ProcEntry where
  pid := 1234
  comm := "HOWDY".toList
  cmdline := "/usr/bin/HOWDY --face".toList

/-- A running `howdy` process as the /proc scan reads it. -/
def howdyEntry : ProcEntry where
  pid := 77
  comm := "howdy".toList
  cmdline := "/usr/bin/howdy compare".toList

/-- A tick in which a watched process is running. -/
def demoTickEnv : TickEnv where
  table := [howdyEntry]
  devInUse := false
  probe := ⟨OpenOutcome.opened, IoctlOutcome.failure EBUSY⟩

/-- A spawn environment in which every fork yields child 42 and child 42
is alive. -/
def demoSpawnEnv : SpawnEnv where
  alive := fun p => p = 42
  forkRes := fun _ => some 42

/-- A stop environment whose children ignore SIGTERM: every WNOHANG poll
returns 0. -/
def stubbornStop : StopEnv where
  exitsAtPoll := fun _ => none

/-! ## Helper lemmas -/

theorem clampBrightness_range (b : Int) :
    1 ≤ clampBrightness b ∧ clampBrightness b ≤ 100 := by
  unfold clampBrightness
  split
  · omega
  · split <;> omega

theorem clampWidth_range (w : Int) :
    10 ≤ clampWidth w ∧ clampWidth w ≤ 500 := by
  unfold clampWidth
  split
  · omega
  · split <;> omega

theorem load_config_brightness (file : Option (List (List Char))) :
    (load_config file).brightness =
      match getVal file "brightness".toList with
      | some v => clampBrightness (atoi v)
      | none => defaultConfig.brightness := rfl

theorem load_config_width (file : Option (List (List Char))) :
    (load_config file).width =
      match getVal file "width".toList with
      | some v => clampWidth (atoi v)
      | none => defaultConfig.width := rfl

theorem load_config_brightness_range (file : Option (List (List Char))) :
    1 ≤ (load_config file).brightness ∧ (load_config file).brightness ≤ 100 := by
  rw [load_config_brightness]
  cases getVal file "brightness".toList with
  | none => exact ⟨by norm_num [defaultConfig], by norm_num [defaultConfig]⟩
  | some v => exact clampBrightness_range (atoi v)

theorem load_config_width_range (file : Option (List (List Char))) :
    10 ≤ (load_config file).width ∧ (load_config file).width ≤ 500 := by
  rw [load_config_width]
  cases getVal file "width".toList with
  | none => exact ⟨by norm_num [defaultConfig], by norm_num [defaultConfig]⟩
  | some v => exact clampWidth_range (atoi v)

theorem startup_brightness (file : Option (List (List Char))) (cli : CliOpts) :
    (startupConfig file cli).brightness =
      match cli.brightness with
      | some b => clampBrightness b
      | none => (load_config file).brightness := rfl

theorem startup_width (file : Option (List (List Char))) (cli : CliOpts) :
    (startupConfig file cli).width =
      match cli.width with
      | some w => clampWidth w
      | none => (load_config file).width := rfl

theorem startup_brightness_range (file : Option (List (List Char))) (cli : CliOpts) :
    1 ≤ (startupConfig file cli).brightness ∧ (startupConfig file cli).brightness ≤ 100 := by
  rw [startup_brightness]
  cases cli.brightness with
  | none => exact load_config_brightness_range file
  | some b => exact clampBrightness_range b

theorem startup_width_range (file : Option (List (List Char))) (cli : CliOpts) :
    10 ≤ (startupConfig file cli).width ∧ (startupConfig file cli).width ≤ 500 := by
  rw [startup_width]
  cases cli.width with
  | none => exact load_config_width_range file
  | some w => exact clampWidth_range w

theorem countCalls_append (c : LoopCall) (a b : List (Nat × LoopCall)) :
    countCalls c (a ++ b) = countCalls c a + countCalls c b := by
  simp [countCalls, List.filter_append]

theorem countCalls_go_spawn (probes : List Bool) (was : Bool) (n : Nat) :
    countCalls .spawn (loopCalls.go probes was n) = risingEdges was probes := by
  induction probes generalizing was n with
  | nil => rfl
  | cons b rest ih =>
    simp only [loopCalls.go, risingEdges]
    rw [countCalls_append, ih]
    cases was <;> cases b <;> simp [tickCall, countCalls]

theorem countCalls_go_terminate (probes : List Bool) (was : Bool) (n : Nat) :
    countCalls .terminate (loopCalls.go probes was n) = fallingEdges was probes := by
  induction probes generalizing was n with
  | nil => rfl
  | cons b rest ih =>
    simp only [loopCalls.go, fallingEdges]
    rw [countCalls_append, ih]
    cases was <;> cases b <;> simp [tickCall, countCalls]

/-- Whether a child outlives all ten WNOHANG polls and must be SIGKILLed. -/
def survives (env : StopEnv) (p : Int) : Bool :=
  match env.exitsAtPoll p with
  | some k => 10 ≤ k
  | none => true

theorem stopChild_sigtermed (env : StopEnv) (p : Int) :
    (stopChild env p).sigtermed = if 0 < p then [p] else [] := by
  unfold stopChild
  by_cases hp : p ≤ 0
  · simp [hp, show ¬ (0 : Int) < p by omega]
  · simp only [hp, if_false, show (0 : Int) < p by omega, if_true]
    cases h : env.exitsAtPoll p with
    | none => simp [h]
    | some k => by_cases hk : k < 10 <;> simp [h, hk]

theorem stopChild_reaped (env : StopEnv) (p : Int) :
    (stopChild env p).reaped = if 0 < p then [p] else [] := by
  unfold stopChild
  by_cases hp : p ≤ 0
  · simp [hp, show ¬ (0 : Int) < p by omega]
  · simp only [hp, if_false, show (0 : Int) < p by omega, if_true]
    cases h : env.exitsAtPoll p with
    | none => simp [h]
    | some k => by_cases hk : k < 10 <;> simp [h, hk]

theorem stopChild_sigkilled (env : StopEnv) (p : Int) :
    (stopChild env p).sigkilled = if 0 < p && survives env p then [p] else [] := by
  unfold stopChild survives
  by_cases hp : p ≤ 0
  · simp [hp, show ¬ (0 : Int) < p by omega]
  · simp only [hp, if_false]
    cases h : env.exitsAtPoll p with
    | none => simp [show (0 : Int) < p by omega]
    | some k =>
      by_cases hk : k < 10
      · simp [hk, show ¬ 10 ≤ k by omega]
      · simp [hk, show 10 ≤ k by omega, show (0 : Int) < p by omega]

theorem stopChild_sleep_le (env : StopEnv) (p : Int) :
    (stopChild env p).sleepSlices ≤ 10 := by
  unfold stopChild
  by_cases hp : p ≤ 0
  · simp [hp]
  · simp only [hp, if_false]
    cases env.exitsAtPoll p with
    | none => simp
    | some k =>
      by_cases hk : k < 10
      · simp [hk]; omega
      · simp [hk]

theorem stop_trace_cons (env : StopEnv) (p : Int) (rest : List Int) :
    (stop_overlays env (p :: rest)).2 =
      appendTrace (stopChild env p) (stop_overlays env rest).2 := rfl

theorem stop_sigtermed (env : StopEnv) (pids : List Int) :
    (stop_overlays env pids).2.sigtermed = pids.filter (fun p => 0 < p) := by
  induction pids with
  | nil => rfl
  | cons p rest ih =>
    rw [stop_trace_cons]
    simp only [appendTrace, stopChild_sigtermed, ih, List.filter_cons]
    by_cases hp : (0 : Int) < p <;> simp [hp]

theorem stop_reaped (env : StopEnv) (pids : List Int) :
    (stop_overlays env pids).2.reaped = pids.filter (fun p => 0 < p) := by
  induction pids with
  | nil => rfl
  | cons p rest ih =>
    rw [stop_trace_cons]
    simp only [appendTrace, stopChild_reaped, ih, List.filter_cons]
    by_cases hp : (0 : Int) < p <;> simp [hp]

theorem stop_sigkilled (env : StopEnv) (pids : List Int) :
    (stop_overlays env pids).2.sigkilled = pids.filter (fun p => 0 < p && survives env p) := by
  induction pids with
  | nil => rfl
  | cons p rest ih =>
    rw [stop_trace_cons]
    simp only [appendTrace, stopChild_sigkilled, ih, List.filter_cons]
    by_cases hp : (0 < p && survives env p) = true <;> simp [hp]

theorem stop_sleep_le (env : StopEnv) (pids : List Int) :
    (stop_overlays env pids).2.sleepSlices ≤ 10 * pids.length := by
  induction pids with
  | nil => simp [stop_overlays]
  | cons p rest ih =>
    rw [stop_trace_cons]
    simp only [appendTrace, List.length_cons]
    have h := stopChild_sleep_le env p
    omega

theorem splitAtEq_cons_ne (c : Char) (cs : List Char) (h : c ≠ '=') :
    splitAtEq (c :: cs) =
      match splitAtEq cs with
      | some (pre, post) => some (c :: pre, post)
      | none => none := by
  simp [splitAtEq, h]

theorem keyLinePred_skipped (key l : List Char) (hk : lineSkipped key = false)
    (hs : lineSkipped l = true) : keyLinePred key l = false := by
  cases l with
  | nil => simp [lineSkipped] at hs
  | cons c cs =>
    simp only [lineSkipped, Bool.or_eq_true, decide_eq_true_eq] at hs
    have hc : c ≠ '=' := by rcases hs with (h | h) | h <;> simp [h]
    unfold keyLinePred
    rw [splitAtEq_cons_ne c cs hc]
    cases h2 : splitAtEq cs with
    | none => rfl
    | some pr =>
      simp only [decide_eq_false_iff_not]
      intro he
      rw [← he] at hk
      simp only [lineSkipped, Bool.or_eq_false_iff, decide_eq_false_iff_not] at hk
      rcases hs with (h | h) | h <;> simp [h] at hk

theorem specLookup_cons_neg (l : List Char) (ls : List (List Char)) (key : List Char)
    (h : keyLinePred key l = false) :
    specConfigLookup (l :: ls) key = specConfigLookup ls key := by
  unfold specConfigLookup firstKeyLine
  rw [List.find?_cons_of_neg _ (by simp [h])]

theorem specLookup_cons_pos (l : List Char) (ls : List (List Char)) (key : List Char)
    (h : keyLinePred key l = true) :
    specConfigLookup (l :: ls) key =
      match splitAtEq l with
      | some (_, post) => some (extractValue post)
      | none => none := by
  unfold specConfigLookup firstKeyLine
  rw [List.find?_cons_of_pos _ h]

/-! ## Claim theorems -/

/-- C1: The event loop is edge-triggered.  A tick whose `target_lit`
value is unchanged performs no spawn/terminate call; a false→true tick
produces exactly a spawn and a true→false tick exactly a terminate; over
every probe-result sequence the number of spawn calls equals the number
of not-in-use→in-use edges and the number of terminate calls the number
of in-use→not-in-use edges; and the sequence not-busy, not-busy, busy,
busy, not-busy yields exactly one spawn, at tick 3, and one terminate, at
tick 5. -/
theorem loop_edge_triggered :
    (∀ w : Bool, tickCall w w = none) ∧
    tickCall false true = some LoopCall.spawn ∧
    tickCall true false = some LoopCall.terminate ∧
    (∀ probes : List Bool,
      countCalls LoopCall.spawn (loopCalls probes) = risingEdges false probes ∧
      countCalls LoopCall.terminate (loopCalls probes) = fallingEdges false probes) ∧
    loopCalls [false, false, true, true, false] =
      [(3, LoopCall.spawn), (5, LoopCall.terminate)] := by
  refine ⟨fun w => by cases w <;> rfl, rfl, rfl, fun probes => ⟨?_, ?_⟩, by decide⟩
  · exact countCalls_go_spawn probes false 1
  · exact countCalls_go_terminate probes false 1

/-- C2: The V4L2 busy probe reports the camera in use iff the open
succeeded and the request-buffers ioctl failed with errno EBUSY; every
other outcome — open failure (ENODEV, ENOENT, EACCES, ...), ioctl
failure with a different errno, or ioctl success — reports not in use. -/
theorem v4l2_busy_iff (env : ProbeEnv) :
    v4l2_busy env = true ↔
      env.openRes = OpenOutcome.opened ∧ env.ioctlRes = IoctlOutcome.failure EBUSY := by
  obtain ⟨o, i⟩ := env
  cases o with
  | failure err => simp [v4l2_busy]
  | opened =>
    cases i with
    | success => simp [v4l2_busy]
    | failure err => simp [v4l2_busy]

/-- C6: During a tick in which the watched-process check reports a match,
the V4L2 busy probe is not invoked (the C `||` short-circuits), and the
tick still reports activity. -/
theorem probe_skipped_when_watched (procs : List (List Char)) (e : TickEnv)
    (h : watched_active e.table procs = true) :
    (cam_active_run procs e).2 = false ∧ cam_active procs e = true := by
  constructor
  · simp [cam_active_run, h]
  · simp [cam_active, cam_active_run, h]

/-- Witness for C6 at a concrete tick: a running `howdy` process is
matched, and the probe-invoked flag of that tick is false even though the
device would report EBUSY. -/
theorem probe_skipped_when_watched_witness :
    watched_active demoTickEnv.table [howdyName] = true ∧
    (cam_active_run [howdyName] demoTickEnv).2 = false :=
  ⟨by decide, (probe_skipped_when_watched [howdyName] demoTickEnv (by decide)).1⟩

/-- C7: For every config file and every command line, the loaded
brightness lies in [1,100] and the loaded width in [10,500]; in
particular brightness 0 in the file clamps to 1, brightness 101 to 100,
width 5 to 10 and width 1000 to 500. -/
theorem overlay_params_clamped :
    (∀ (file : Option (List (List Char))) (cli : CliOpts),
      1 ≤ (startupConfig file cli).brightness ∧ (startupConfig file cli).brightness ≤ 100 ∧
      10 ≤ (startupConfig file cli).width ∧ (startupConfig file cli).width ≤ 500) ∧
    (load_config (some ["brightness=0".toList])).brightness = 1 ∧
    (load_config (some ["brightness=101".toList])).brightness = 100 ∧
    (load_config (some ["width=5".toList])).width = 10 ∧
    (load_config (some ["width=1000".toList])).width = 500 ∧
    (startupConfig none { noOpts with brightness := some 0 }).brightness = 1 ∧
    (startupConfig none { noOpts with width := some 1000 }).width = 500 := by
  refine ⟨fun file cli => ?_, by decide, by decide, by decide, by decide, by decide, by decide⟩
  obtain ⟨hb1, hb2⟩ := startup_brightness_range file cli
  obtain ⟨hw1, hw2⟩ := startup_width_range file cli
  exact ⟨hb1, hb2, hw1, hw2⟩

/-- C8 counterexample: a `-i 50` poll interval is NOT clamped to 100 — it
stays 50, because the code clamps to 10, not 100. -/
theorem poll_interval_counterexample :
    final_poll_ms (some "50".toList) = 50 ∧ ¬ 100 ≤ final_poll_ms (some "50".toList) := by
  decide

/-- C8 amended: the poll interval is clamped at option-parse time to at
least 10 ms (the config file does not feed it in this source); a value of
50 is left at 50, while 5 is raised to 10. -/
theorem poll_interval_clamped_to_ten :
    (∀ a : Option (List Char), 10 ≤ final_poll_ms a) ∧
    apply_interval_opt "50".toList = 50 ∧
    apply_interval_opt "5".toList = 10 := by
  refine ⟨fun a => ?_, by decide, by decide⟩
  cases a with
  | none => norm_num [final_poll_ms]
  | some v =>
    show (10 : Int) ≤ if atoi v < 10 then 10 else atoi v
    split <;> omega

/-- C3 counterexample: with two children that ignore SIGTERM the
supervisor sleeps 20 slices of 50 ms — 1000 ms in total, not "about
500 ms total": the ≈500 ms budget is per child, not split across the
children. -/
theorem stop_total_wait_counterexample :
    (stop_overlays stubbornStop [101, 102]).2.sleepSlices * 50 = 1000 ∧
    ¬ (stop_overlays stubbornStop [101, 102]).2.sleepSlices * 50 ≤ 500 := by
  decide

/-- C3 amended: terminate() is idempotent (a call with no recorded
children, in particular any second consecutive call, does nothing);
it SIGTERMs every recorded child, waits up to about 500 ms per child in
50 ms slices, SIGKILLs the survivors, and on return the child set is
empty and every child has been reaped. -/
theorem stop_overlays_contract :
    (∀ env : StopEnv, stop_overlays env [] = ([], ⟨[], [], [], 0⟩)) ∧
    (∀ (env : StopEnv) (pids : List Int),
      stop_overlays env (stop_overlays env pids).1 = ([], ⟨[], [], [], 0⟩)) ∧
    (∀ (env : StopEnv) (pids : List Int),
      (stop_overlays env pids).1 = [] ∧
      (stop_overlays env pids).2.sigtermed = pids.filter (fun p => 0 < p) ∧
      (stop_overlays env pids).2.reaped = pids.filter (fun p => 0 < p) ∧
      (stop_overlays env pids).2.sigkilled = pids.filter (fun p => 0 < p && survives env p) ∧
      (stop_overlays env pids).2.sleepSlices ≤ 10 * pids.length) :=
  ⟨fun _ => rfl, fun _ _ => rfl, fun env pids =>
    ⟨rfl, stop_sigtermed env pids, stop_reaped env pids,
     stop_sigkilled env pids, stop_sleep_le env pids⟩⟩

/-- C4 counterexample: a process whose kernel short name is `HOWDY`
(and whose command line contains `HOWDY`) matches under the claim's
case-insensitive reading but is NOT matched by the code, whose
comparison is a case-sensitive `strcmp` of the short name only. -/
theorem watch_match_counterexample :
    specProcMatches [howdyName] upperHowdyEntry = true ∧
    proc_running [upperHowdyEntry] howdyName = false ∧
    watched_active [upperHowdyEntry] [howdyName] = false := by
  decide

/-- C4 amended: a process counts as a watched-process match iff its
kernel-reported short name equals some element of the watch list
byte-for-byte (case-sensitively); the command line is never examined. -/
theorem watched_active_iff (table : List ProcEntry) (procs : List (List Char)) :
    watched_active table procs = true ↔
      ∃ n ∈ procs, ∃ p ∈ table, p.comm = n := by
  simp [watched_active, proc_running, List.any_eq_true]

/-- C5: spawn() is idempotent: when some recorded child is alive the call
is a no-op, and hence a second consecutive spawn() whose predecessor left
a live child returns the same child set. -/
theorem spawn_idempotent :
    (∀ (env : SpawnEnv) (screens : List (List Char)) (pids : List Int),
      pids.any (fun p => 0 < p && env.alive p) = true →
      start_overlays env screens pids = pids) ∧
    (∀ (env : SpawnEnv) (screens : List (List Char)) (pids : List Int),
      (start_overlays env screens pids).any (fun p => 0 < p && env.alive p) = true →
      start_overlays env screens (start_overlays env screens pids) =
        start_overlays env screens pids) := by
  have h1 : ∀ (env : SpawnEnv) (screens : List (List Char)) (pids : List Int),
      pids.any (fun p => 0 < p && env.alive p) = true →
      start_overlays env screens pids = pids := by
    intro env screens pids h
    unfold start_overlays
    simp [h]
  exact ⟨h1, fun env screens pids h => h1 env screens _ h⟩

/-- Witness for C5 at a concrete environment: child 42 is alive, so a
spawn with it recorded is a no-op, and spawning twice from the empty set
equals spawning once. -/
theorem spawn_idempotent_witness :
    (([42] : List Int).any (fun p => 0 < p && demoSpawnEnv.alive p) = true ∧
      start_overlays demoSpawnEnv [] [42] = [42]) ∧
    ((start_overlays demoSpawnEnv [] []).any (fun p => 0 < p && demoSpawnEnv.alive p) = true ∧
      start_overlays demoSpawnEnv [] (start_overlays demoSpawnEnv [] []) =
        start_overlays demoSpawnEnv [] []) :=
  ⟨⟨by decide, spawn_idempotent.1 demoSpawnEnv [] [42] (by decide)⟩,
   ⟨by decide, spawn_idempotent.2 demoSpawnEnv [] [] (by decide)⟩⟩

/-- C9 counterexample: a config file whose brightness value cannot be
coerced is NOT fatal and raises no parse error — `load_config` completes,
coercing `abc` through atoi to 0 and clamping it to 1. -/
theorem malformed_config_not_fatal :
    load_config (some ["brightness=abc".toList]) =
      { defaultConfig with brightness := 1, procs := ["howdy".toList] } ∧
    atoi "abc".toList = 0 := by
  decide

/-- C9 amended: config loading never fails: a missing or unreadable file
leaves every default in place (and the default watch name), a value that
cannot be coerced is silently run through atoi and clamped, and the
loaded numeric fields are always in range. -/
theorem config_load_never_fails :
    load_config none = { defaultConfig with procs := ["howdy".toList] } ∧
    (load_config (some ["width=xyz".toList])).width = 10 ∧
    (∀ file : Option (List (List Char)),
      1 ≤ (load_config file).brightness ∧ 10 ≤ (load_config file).width) :=
  ⟨by decide, by decide, fun file =>
    ⟨(load_config_brightness_range file).1, (load_config_width_range file).1⟩⟩

/-- C10: For every config file and every key that does not itself start
with a comment/section character, the loader returns the value of the
first line whose text before the first '=' equals the key exactly
(case-sensitive, no whitespace folded): later occurrences are ignored,
and a line written `key = value` matches no recognized key. -/
theorem config_first_match (file : List (List Char)) (key : List Char)
    (hk : lineSkipped key = false) :
    get_config_value file key = specConfigLookup file key := by
  induction file with
  | nil => rfl
  | cons l ls ih =>
    by_cases hs : lineSkipped l = true
    · rw [specLookup_cons_neg l ls key (keyLinePred_skipped key l hk hs)]
      simp only [get_config_value, hs, if_true]
      exact ih
    · have hs' : lineSkipped l = false := by simpa using hs
      simp only [get_config_value, hs', Bool.false_eq_true, if_false]
      cases h2 : splitAtEq l with
      | none =>
        rw [specLookup_cons_neg l ls key (by unfold keyLinePred; rw [h2])]
        exact ih
      | some pr =>
        obtain ⟨pre, post⟩ := pr
        by_cases hp : pre = key
        · have hpred : keyLinePred key l = true := by
            unfold keyLinePred
            rw [h2]
            simp [hp]
          rw [specLookup_cons_pos l ls key hpred, h2]
          simp [hp]
        · have hpred : keyLinePred key l = false := by
            unfold keyLinePred
            rw [h2]
            simp [hp]
          rw [specLookup_cons_neg l ls key hpred]
          simp only [hp, if_false]
          exact ih

/-- Witness for C10 at a concrete file: a space before '=' keeps the
first line from matching, the second line (first true match) wins over
the third. -/
theorem config_first_match_witness :
    lineSkipped "brightness".toList = false ∧
    get_config_value
        ["brightness =7".toList, "brightness=5".toList, "brightness=9".toList]
        "brightness".toList =
      specConfigLookup
        ["brightness =7".toList, "brightness=5".toList, "brightness=9".toList]
        "brightness".toList ∧
    get_config_value
        ["brightness =7".toList, "brightness=5".toList, "brightness=9".toList]
        "brightness".toList = some "5".toList :=
  ⟨by decide, config_first_match _ _ (by decide), by decide⟩

end RingLight
